import Mathlib

/-!
Verification development for the chat-summary image renderer
(`src/core/summary_image_generator.py` of the `chat_summary_plugin`
repository, class `SummaryImageGenerator`).

The renderer is shallowly embedded here:

* Text is `List Char`; a font is modelled by its metric functions — a pixel
  width function `List Char → Nat` (mirroring `font.getbbox(s)[2] - font.getbbox(s)[0]`)
  and, per loaded font size, one line-height constant (mirroring
  `font.getbbox('测试')[3] - font.getbbox('测试')[1]`, which the code uses both
  for layout and as the vertical extent of a painted text line).
* The two passes of `generate_summary_image` — the height computation
  (source lines 867-917) and the painting pass (lines 1037-1753) — are
  embedded as pure functions over a `RenderRequest`.  Painting is modelled
  at the level the specification speaks about: each painted primitive is
  represented by its vertical pixel extent `[lo, hi)` (an `Int × Int`,
  relative to the enclosing block's offset).  Blur/glow/shadow spreads are
  modelled by their maximal offsets from the source: a card shadow extends
  20 px above and 26 px below the card rectangle (outline offsets up to 15,
  translation +2, stroke width 2, Gaussian radius 15 // 2 = 7), a decoration
  glow extends 23 px around the pasted icon (paste offsets up to 15 plus
  Gaussian radius 8), shadowed text extends by its shadow offset, and
  outlined section titles extend by `shadow_radius + shadow_radius // 3`.
* `int(x)` applied to a nonnegative float quotient is modelled as `Nat`
  floor division.
* Filesystem and PIL effects (`os.path.exists`, `Image.open`, exception
  handling) are modelled by explicit boolean/`Option`-valued parameters.
-/

/-- Python `str.isspace`/`str.strip()` whitespace test, used by
`_wrap_text` through `paragraph.strip()` (source line 115): the characters
of bidirectional class WS/B/S or Unicode category Zs — U+0009–U+000D,
U+001C–U+001F, the space, U+0085, U+00A0, U+1680, U+2000–U+200A,
U+2028, U+2029, U+202F, U+205F and U+3000. -/
def pySpace (c : Char) : Bool :=
  (0x09 ≤ c.toNat && c.toNat ≤ 0x0D) || c.toNat == 0x20
    || (0x1C ≤ c.toNat && c.toNat ≤ 0x1F) || c.toNat == 0x85 || c.toNat == 0xA0
    || c.toNat == 0x1680 || (0x2000 ≤ c.toNat && c.toNat ≤ 0x200A)
    || c.toNat == 0x2028 || c.toNat == 0x2029 || c.toNat == 0x202F
    || c.toNat == 0x205F || c.toNat == 0x3000

/-- Python `text.split('\n')` on a character list: always returns at least
one (possibly empty) paragraph, one more paragraph per newline. -/
def splitOnNl : List Char → List (List Char)
  | [] => [[]]
  | c :: cs =>
    if c = '\n' then [] :: splitOnNl cs
    else
      match splitOnNl cs with
      | [] => [[c]]
      | p :: ps => (c :: p) :: ps

/-- The inner character loop of `_wrap_text` (source lines 119-133).
`cur` is `current_line`; a character is appended to the current line when
the accumulated string still measures within `maxW`, otherwise the current
line is flushed (when nonempty) and a new line starts with that character;
the final nonempty line is flushed after the loop. -/
def wrapLoop (w : List Char → Nat) (maxW : Nat) : List Char → List Char → List (List Char)
  | [], cur => if cur.isEmpty then [] else [cur]
  | c :: cs, cur =>
    if w (cur ++ [c]) ≤ maxW then
      wrapLoop w maxW cs (cur ++ [c])
    else if cur.isEmpty then
      wrapLoop w maxW cs [c]
    else
      cur :: wrapLoop w maxW cs [c]

/-- Wrapping of one non-blank paragraph of `_wrap_text`. -/
def wrapPara (w : List Char → Nat) (maxW : Nat) (p : List Char) : List (List Char) :=
  wrapLoop w maxW p []

/-- The per-paragraph contribution of `_wrap_text` (source lines 114-133):
a paragraph whose `strip()` is empty contributes a single empty line,
otherwise its greedy character wrap. -/
def wrapParagraphLines (w : List Char → Nat) (maxW : Nat) (p : List Char) : List (List Char) :=
  if p.all pySpace then [[]] else wrapPara w maxW p

/-- `SummaryImageGenerator._wrap_text` (source lines 109-135): split the
text on newlines and wrap each paragraph. -/
def wrapText (w : List Char → Nat) (maxW : Nat) (t : List Char) : List (List Char) :=
  ((splitOnNl t).map (wrapParagraphLines w maxW)).flatten

/-- Characters are never dropped by the greedy wrap loop: concatenating the
produced lines restores the pending line followed by the remaining input. -/
theorem wrapLoop_flatten (w : List Char → Nat) (maxW : Nat) :
    ∀ (cs cur : List Char), (wrapLoop w maxW cs cur).flatten = cur ++ cs := by
  intro cs
  induction cs with
  | nil =>
    intro cur
    by_cases h : cur.isEmpty
    · simp [wrapLoop, h, List.isEmpty_iff.mp h]
    · simp [wrapLoop, h]
  | cons c cs ih =>
    intro cur
    by_cases hw : w (cur ++ [c]) ≤ maxW
    · simp [wrapLoop, hw, ih]
    · by_cases hcur : cur.isEmpty
      · simp [wrapLoop, hw, hcur, ih, List.isEmpty_iff.mp hcur]
      · simp [wrapLoop, hw, hcur, ih]

/-- Invariant of the wrap loop: provided every single remaining character
measures within `maxW` and the pending line is empty or measures within
`maxW`, every emitted line measures within `maxW`. -/
theorem wrapLoop_width (w : List Char → Nat) (maxW : Nat) :
    ∀ (cs cur : List Char), (∀ c ∈ cs, w [c] ≤ maxW) →
      (cur = [] ∨ w cur ≤ maxW) →
      ∀ l ∈ wrapLoop w maxW cs cur, w l ≤ maxW := by
  intro cs
  induction cs with
  | nil =>
    intro cur _ hcur l hl
    by_cases h : cur.isEmpty
    · simp [wrapLoop, h] at hl
    · simp [wrapLoop, h] at hl
      rcases hcur with hc | hc
      · simp [hc] at h
      · simpa [hl] using hc
  | cons c cs ih =>
    intro cur hchars hcur l hl
    have hc : w [c] ≤ maxW := hchars c (List.mem_cons_self c cs)
    have hchars' : ∀ x ∈ cs, w [x] ≤ maxW := fun x hx => hchars x (List.mem_cons_of_mem c hx)
    by_cases hw : w (cur ++ [c]) ≤ maxW
    · rw [wrapLoop, if_pos hw] at hl
      exact ih (cur ++ [c]) hchars' (Or.inr hw) l hl
    · by_cases hcure : cur.isEmpty
      · rw [wrapLoop, if_neg hw, if_pos hcure] at hl
        exact ih [c] hchars' (Or.inr hc) l hl
      · rw [wrapLoop, if_neg hw, if_neg hcure] at hl
        rcases List.mem_cons.mp hl with hl | hl
        · rcases hcur with h0 | h0
          · simp [h0] at hcure
          · simpa [hl] using h0
        · exact ih [c] hchars' (Or.inr hc) l hl

/-- Every character of a paragraph produced by `splitOnNl` is a character
of the original text. -/
theorem splitOnNl_mem (t : List Char) :
    ∀ p ∈ splitOnNl t, ∀ c ∈ p, c ∈ t := by
  induction t with
  | nil =>
    intro p hp
    simp [splitOnNl] at hp
    simp [hp]
  | cons a t ih =>
    intro p hp c hc
    by_cases ha : a = '\n'
    · rw [splitOnNl, if_pos ha] at hp
      rcases List.mem_cons.mp hp with h | h
      · simp [h] at hc
      · exact List.mem_cons_of_mem a (ih p h c hc)
    · rw [splitOnNl, if_neg ha] at hp
      rcases hsp : splitOnNl t with _ | ⟨q, qs⟩
      · rw [hsp] at hp
        simp at hp
        rw [hp] at hc
        simp at hc
        simp [hc]
      · rw [hsp] at hp
        rcases List.mem_cons.mp hp with h | h
        · rw [h] at hc
          rcases List.mem_cons.mp hc with h' | h'
          · simp [h']
          · have hq : q ∈ splitOnNl t := by rw [hsp]; exact List.mem_cons_self q qs
            exact List.mem_cons_of_mem a (ih q hq c h')
        · have hqs : p ∈ splitOnNl t := by rw [hsp]; exact List.mem_cons_of_mem q h
          exact List.mem_cons_of_mem a (ih p hqs c hc)

/-- Flattening a flattened map can be computed paragraph-wise. -/
theorem flatten_map_flatten {α : Type} (f : α → List (List Char)) (h : α → List Char) :
    ∀ l : List α, (∀ a ∈ l, (f a).flatten = h a) →
      ((l.map f).flatten).flatten = (l.map h).flatten := by
  intro l
  induction l with
  | nil => intro; simp
  | cons a l ih =>
    intro hfh
    have ha := hfh a (List.mem_cons_self a l)
    have hl := ih fun x hx => hfh x (List.mem_cons_of_mem a hx)
    simp only [List.map_cons, List.flatten_cons, List.flatten_append, ha, hl]

/-- Claim C2 (corrected). Under the claim's hypothesis that every single
character of the text measures within `maxW` (plus the font fact that the
empty string measures within `maxW`), `_wrap_text`:
(1) only produces lines whose rendered pixel width is ≤ `maxW`;
(2) concatenating all produced lines reproduces the original text with
newlines removed and **every all-whitespace paragraph replaced by the empty
paragraph** (the unamended claim fails: a nonempty all-whitespace paragraph
is collapsed to a single empty line, losing its characters);
(3) every paragraph whose `strip()` is empty — in particular every empty
paragraph — yields exactly one empty output line. -/
theorem c2_wrap_text_amended (w : List Char → Nat) (maxW : Nat) (t : List Char)
    (hc : ∀ c ∈ t, w [c] ≤ maxW) (hnil : w [] ≤ maxW) :
    (∀ l ∈ wrapText w maxW t, w l ≤ maxW)
    ∧ (wrapText w maxW t).flatten
        = ((splitOnNl t).map (fun p => if p.all pySpace then [] else p)).flatten
    ∧ (∀ p ∈ splitOnNl t, p.all pySpace = true → wrapParagraphLines w maxW p = [[]]) := by
  refine ⟨?_, ?_, ?_⟩
  · intro l hl
    rw [wrapText, List.mem_flatten] at hl
    obtain ⟨ls, hls, hlmem⟩ := hl
    rw [List.mem_map] at hls
    obtain ⟨p, hp, rfl⟩ := hls
    by_cases hsp : p.all pySpace
    · rw [wrapParagraphLines, if_pos hsp] at hlmem
      simp at hlmem
      simpa [hlmem] using hnil
    · rw [wrapParagraphLines, if_neg hsp] at hlmem
      exact wrapLoop_width w maxW p []
        (fun c hcp => hc c (splitOnNl_mem t p hp c hcp)) (Or.inl rfl) l hlmem
  · rw [wrapText]
    refine flatten_map_flatten _ _ _ ?_
    intro p hp
    by_cases hsp : p.all pySpace
    · simp [wrapParagraphLines, hsp]
    · simp only [wrapParagraphLines, if_neg hsp, wrapPara, wrapLoop_flatten, List.nil_append]
  · intro p _ hsp
    simp [wrapParagraphLines, hsp]

/-- Claim C2, counterexample to the unamended claim: for the one-character
text `" "` (a single space) every character measures within the maximum
width, yet concatenating the lines returned by `_wrap_text` yields the
empty text, not the original text. -/
theorem c2_wrap_text_counterexample :
    (∀ c ∈ [' '], (fun l : List Char => 10 * l.length) [c] ≤ 100)
    ∧ (wrapText (fun l : List Char => 10 * l.length) 100 [' ']).flatten ≠ [' '] := by
  decide

/-- Witness for `c2_wrap_text_amended` at a concrete text and metric; the
second paragraph consists of one ideographic space U+3000, which
`paragraph.strip()` collapses. -/
theorem c2_wrap_text_amended_witness :
    (∀ c ∈ ['a', 'b', '\n', '\u3000'], (fun l : List Char => 10 * l.length) [c] ≤ 25)
    ∧ (∀ l ∈ wrapText (fun l : List Char => 10 * l.length) 25 ['a', 'b', '\n', '\u3000'],
        (fun l : List Char => 10 * l.length) l ≤ 25) :=
  ⟨by decide,
    (c2_wrap_text_amended (fun l : List Char => 10 * l.length) 25 ['a', 'b', '\n', '\u3000']
      (by decide) (by decide)).1⟩

/-- `LayoutConfig.PADDING` (constants.py line 70). -/
def PADDING : Nat := 70

/-- `LayoutConfig.CARD_PADDING` (constants.py line 71). -/
def CARD_PADDING : Nat := 45

/-- `LayoutConfig.CARD_SPACING` (constants.py line 72). -/
def CARD_SPACING : Nat := 35

/-- `LayoutConfig.WIDTH` (constants.py line 69). -/
def CANVAS_WIDTH : Nat := 1200

/-- Metrics of the five fonts `generate_summary_image` loads (title,
section-title, subtitle, text, small).  `wText`/`wSmall` model the pixel
width `font.getbbox(s)[2] - font.getbbox(s)[0]` of the two fonts used for
wrapping; `hTitle` … `hSmall` model the per-font line height
`font.getbbox('测试')[3] - font.getbbox('测试')[1]`, also used as the
vertical extent of one painted line of text in that font. -/
structure FontMetrics where
  wText : List Char → Nat
  wSmall : List Char → Nat
  hTitle : Nat
  hSection : Nat
  hSubtitle : Nat
  hText : Nat
  hSmall : Nat

/-- One entry of the `user_titles` argument: a dict with keys `name`,
`title`, `reason` (read at source lines 1396-1398). -/
structure TitleItem where
  name : List Char
  title : List Char
  reason : List Char

/-- One entry of the `golden_quotes` argument: a dict with keys `content`,
`sender`, `reason` (read at source lines 1610-1612). -/
structure QuoteItem where
  content : List Char
  sender : List Char
  reason : List Char

/-- The arguments of one `generate_summary_image` call, with the optional
arguments already defaulted (source lines 846-855). -/
structure RenderRequest where
  title : List Char
  summaryText : List Char
  timeInfo : List Char
  messageCount : Nat
  participantCount : Nat
  userTitles : List TitleItem
  goldenQuotes : List QuoteItem
  hourlyDistribution : List (Nat × Nat)

/-- Python `hourly_data.get(hour, 0)` on the hour→count dict, modelled as
an association list (a Python dict has unique keys). -/
def dictGet (d : List (Nat × Nat)) (k : Nat) : Nat :=
  ((d.find? (fun p => p.1 == k)).map Prod.snd).getD 0

/-- Python `hourly_data.values()`. -/
def dictValues (d : List (Nat × Nat)) : List Nat :=
  d.map Prod.snd

/-- `max_count` of `_draw_hourly_chart` (source lines 701-703):
`max(hourly_data.values()) if hourly_data else 1`, then replaced by 1 when
zero.  For `Nat` counts this is `max 1 (maximum of the values)`. -/
def maxCount (d : List (Nat × Nat)) : Nat :=
  max 1 ((dictValues d).foldr max 0)

/-- The bar height of `_draw_hourly_chart` (source line 715):
`max(3, int(available_height * count / max_count))`; the guard
`if max_count > 0 else 3` is vacuous since `max_count ≥ 1`.  `int` of the
nonnegative float quotient is modelled as floor division. -/
def barHeight (d : List (Nat × Nat)) (avail : Nat) (hour : Nat) : Nat :=
  max 3 (avail * dictGet d hour / maxCount d)

/-- `available_height` of `_draw_hourly_chart` (source lines 706-708) for a
chart area of height `chartHeight`: label rows and margins subtracted. -/
def chartAvailableHeight (chartHeight : Nat) : Nat :=
  chartHeight - 35 - 40 - 20

/-- The condition under which the hourly chart section exists (source lines
875 and 1194): `hourly_distribution and any(hourly_distribution.values())`. -/
def chartShown (d : List (Nat × Nat)) : Bool :=
  !d.isEmpty && (dictValues d).any (fun c => c != 0)

/-- `header_height` (source line 868). -/
def headerHeight : Nat := 300

/-- `footer_height` (source line 916). -/
def footerHeight : Nat := 280

/-- `hourly_chart_height` (source lines 869, 874-876): the fixed constant
440 when the chart is shown, else 0. -/
def hourlyChartHeight (d : List (Nat × Nat)) : Nat :=
  if chartShown d then 440 else 0

/-- `max_text_width` (source line 879), also `max_reason_width` (line 889),
`max_quote_width` (line 903) and the identically-valued paint-pass
recomputations (lines 1401, 1616): the canvas width minus outer and card
padding on both sides. -/
def maxTextWidth (width : Nat) : Nat :=
  width - PADDING * 2 - CARD_PADDING * 2

/-- The wrapped summary lines `wrapped_lines` (source line 880). -/
def summaryWrapped (m : FontMetrics) (width : Nat) (s : List Char) : List (List Char) :=
  wrapText m.wText (maxTextWidth width) s

/-- `card_content_height` of the summary card (source line 883). -/
def cardContentHeight (m : FontMetrics) (width : Nat) (s : List Char) : Nat :=
  CARD_PADDING * 2 + (summaryWrapped m width s).length * (m.hText + 18) + 80

/-- `summary_card_height` (source line 884): divider 40 + card + gap 50. -/
def summaryCardHeight (m : FontMetrics) (width : Nat) (s : List Char) : Nat :=
  40 + cardContentHeight m width s + 50

/-- The height of one title card, computed identically in the layout pass
(source lines 893-896) and in the paint pass (lines 1400-1407): header
allowance 50 + title line + 25 + reason lines + 30, clamped to 120. -/
def titleCardHeight (m : FontMetrics) (width : Nat) (it : TitleItem) : Nat :=
  max (50 + m.hSubtitle + 25
      + (wrapText m.wSmall (maxTextWidth width) it.reason).length * (m.hSmall + 8) + 30) 120

/-- Python `f'"{content}"'` (source lines 908, 1617). -/
def quoteDecorated (content : List Char) : List Char :=
  '"' :: content ++ ['"']

/-- The height of one quote card, computed identically in the layout pass
(source lines 906-912) and in the paint pass (lines 1614-1625), clamped
to 200. -/
def quoteCardHeight (m : FontMetrics) (width : Nat) (q : QuoteItem) : Nat :=
  max (50 + (wrapText m.wText (maxTextWidth width) (quoteDecorated q.content)).length * (m.hText + 12)
      + 50 + (wrapText m.wSmall (maxTextWidth width) q.reason).length * (m.hSmall + 8) + 40) 200

/-- The title cards measured by the layout pass: `user_titles[:4]`
(source line 892). -/
def measuredTitleCards (uts : List TitleItem) : List TitleItem :=
  uts.take 4

/-- The title cards painted by the paint pass: `user_titles[:4]`
(source line 1395). -/
def paintedTitleCards (uts : List TitleItem) : List TitleItem :=
  uts.take 4

/-- The quote cards measured by the layout pass: `golden_quotes[:4]`
(source line 905). -/
def measuredQuoteCards (qs : List QuoteItem) : List QuoteItem :=
  qs.take 4

/-- The quote cards painted by the paint pass: `golden_quotes[:4]`
(source line 1609). -/
def paintedQuoteCards (qs : List QuoteItem) : List QuoteItem :=
  qs.take 4

/-- `titles_section_height` (source lines 871, 887-898): zero when there
are no title cards, else 190 (divider + heading area) plus each measured
card's height and spacing, plus a bottom gap of 30. -/
def titlesSectionHeight (m : FontMetrics) (width : Nat) (uts : List TitleItem) : Nat :=
  if uts.isEmpty then 0
  else 190 + ((measuredTitleCards uts).map
      (fun it => titleCardHeight m width it + CARD_SPACING)).sum + 30

/-- `quotes_section_height` (source lines 872, 900-913): zero when there
are no quote cards, else 190 plus each measured card's height and
spacing (no extra bottom gap, unlike the titles section). -/
def quotesSectionHeight (m : FontMetrics) (width : Nat) (qs : List QuoteItem) : Nat :=
  if qs.isEmpty then 0
  else 190 + ((measuredQuoteCards qs).map
      (fun q => quoteCardHeight m width q + CARD_SPACING)).sum

/-- `total_height` (source line 917): the sum of the six per-block heights,
used as the allocated canvas height (line 920). -/
def totalHeight (m : FontMetrics) (width : Nat) (req : RenderRequest) : Nat :=
  headerHeight + hourlyChartHeight req.hourlyDistribution
    + summaryCardHeight m width req.summaryText
    + titlesSectionHeight m width req.userTitles
    + quotesSectionHeight m width req.goldenQuotes
    + footerHeight

/-- Whether the header's stats badge is painted (source lines 1127-1134):
at least one of time info, message count, participant count is present. -/
def statsShown (req : RenderRequest) : Bool :=
  !req.timeInfo.isEmpty || req.messageCount != 0 || req.participantCount != 0

/-- The kind of one painted content block of the poster. -/
inductive BlockKind where
  | header
  | hourlyChart
  | summaryCard
  | titles
  | quotes
  | footer
deriving DecidableEq, Repr

/-- One painted content block: its kind, the vertical offset at which the
paint pass reaches it, the amount by which the paint cursor advances for
it, and the vertical extents `[lo, hi)` (relative to `offset`) of the
primitives painted for it. -/
structure Block where
  kind : BlockKind
  offset : Nat
  height : Nat
  prims : List (Int × Int)
deriving DecidableEq, Repr

/-- Vertical extent of a decorative divider painted 10 px below the cursor
(`_draw_decorative_divider`, source lines 542-614: a 2 px gradient line
with decoration dots of radius up to 8). -/
def dividerPrim : Int × Int := (2, 19)

/-- Vertical extent of a decoration pasted with glow at relative height `y`
with maximal pasted height `size` (`_add_decoration_with_glow`, source
lines 421-480: paste offsets up to 15 plus Gaussian radius 8). -/
def glowPrim (y size : Int) : Int × Int := (y - 23, y + size + 23)

/-- Vertical extent of an outlined section title painted at relative
height `y` (`_draw_colorful_text` with `shadow_radius = 8`, source lines
376-419: outline offsets up to 8 plus Gaussian radius 8 // 3 = 2). -/
def colorfulTextPrim (y h : Int) : Int × Int := (y - 10, y + h + 10)

/-- Vertical extent of a card painted over `[top, bot)` including its soft
shadow (`_draw_colorful_card`, source lines 186-208: outline offsets up to
15, translated by +2, stroke width 2, Gaussian radius 15 // 2 = 7). -/
def cardPrim (top bot : Int) : Int × Int := (top - 20, bot + 26)

/-- Header-block primitives (paint pass, source lines 1039-1189), relative
to the header's offset 0: the outlined title at y = 80, `decoration1` and
its mirror at y = 50 (pasted height ≤ 150), four stars (pasted height ≤ 40)
and, when any stat is present, the stats badge at y = 200 of height
`stats_h + 20`. -/
def headerPrims (m : FontMetrics) (req : RenderRequest) : List (Int × Int) :=
  [colorfulTextPrim 80 m.hTitle,
   glowPrim 50 150, glowPrim 50 150,
   glowPrim 60 40, glowPrim 70 40, glowPrim 140 40, glowPrim 150 40]
  ++ (if statsShown req then [((200 : Int), 220 + (m.hSmall : Int))] else [])

/-- Hourly-chart-block primitives (paint pass, source lines 1194-1253 and
`_draw_hourly_chart`, lines 669-816), relative to the block offset: the
divider, the outlined section heading, the chart card `[140, 390)` with
its corner decorations, and per hour the bar (bottom edge at 290), the
count label above the bar (painted only for nonzero counts) and the time
label (painted every fourth hour). -/
def chartBlockPrims (m : FontMetrics) (d : List (Nat × Nat)) : List (Int × Int) :=
  [dividerPrim,
   colorfulTextPrim 60 m.hSection,
   cardPrim 140 390,
   (150, 175), (355, 380)]
  ++ (List.range 24).map (fun (h : Nat) => (290 - (barHeight d 65 h : Int), 290))
  ++ ((List.range 24).filter (fun h => dictGet d h != 0)).map
      (fun (h : Nat) => (282 - (barHeight d 65 h : Int) - (m.hSmall : Int),
                 283 - (barHeight d 65 h : Int)))
  ++ ((List.range 24).filter (fun h => h % 4 == 0)).map
      (fun _ => ((300 : Int), 300 + (m.hSmall : Int)))

/-- Summary-block primitives (paint pass, source lines 1255-1317), relative
to the block offset: divider, summary card `[40, 40 + cch)` with shadow,
its corner decorations, the wrapped text lines (first line at relative
105, advancing by `line_height + 18`, shadow offset 2), and four sparkle
decorations at the card corners. -/
def summaryBlockPrims (m : FontMetrics) (width : Nat) (s : List Char) : List (Int × Int) :=
  [dividerPrim,
   cardPrim 40 (40 + (cardContentHeight m width s : Int)),
   (50, 75), ((cardContentHeight m width s : Int) + 5, (cardContentHeight m width s : Int) + 30),
   glowPrim 55 40, glowPrim ((cardContentHeight m width s : Int) - 15) 40]
  ++ (List.range (summaryWrapped m width s).length).map
      (fun (i : Nat) => (105 + (i : Int) * ((m.hText : Int) + 18),
                 105 + (i : Int) * ((m.hText : Int) + 18) + (m.hText : Int) + 2))

/-- Primitives of one title card (paint pass, source lines 1409-1524),
relative to the card's top: the card with shadow, corner decorations, the
rank icon (pasted height ≤ 35, glow offsets up to 10 plus Gaussian radius
5), the gradient title badge, the member name, and the reason lines. -/
def titleCardPrims (m : FontMetrics) (width : Nat) (it : TitleItem) : List (Int × Int) :=
  [cardPrim 0 (titleCardHeight m width it : Int),
   (10, 35), ((titleCardHeight m width it : Int) - 35, (titleCardHeight m width it : Int) - 10),
   (15, 80),
   (32, 48 + (m.hSubtitle : Int)),
   (35, 36 + (m.hSubtitle : Int))]
  ++ (List.range (wrapText m.wSmall (maxTextWidth width) it.reason).length).map
      (fun (j : Nat) => (60 + (m.hSubtitle : Int) + (j : Int) * ((m.hSmall : Int) + 8),
                 60 + (m.hSubtitle : Int) + (j : Int) * ((m.hSmall : Int) + 8) + (m.hSmall : Int) + 1))

/-- Primitives of one quote card (paint pass, source lines 1608-1708),
relative to the card's top: the card with shadow, the quote decoration,
corner decorations, the heart decoration, the quote lines (first at
relative 35), the sender line 20 px below the last quote line, and the
reason lines 40 px below the sender. -/
def quoteCardPrims (m : FontMetrics) (width : Nat) (q : QuoteItem) : List (Int × Int) :=
  [cardPrim 0 (quoteCardHeight m width q : Int),
   glowPrim 15 35,
   (10, 35), ((quoteCardHeight m width q : Int) - 35, (quoteCardHeight m width q : Int) - 10),
   glowPrim 20 45]
  ++ (List.range (wrapText m.wText (maxTextWidth width) (quoteDecorated q.content)).length).map
      (fun (j : Nat) => (35 + (j : Int) * ((m.hText : Int) + 12),
                 35 + (j : Int) * ((m.hText : Int) + 12) + (m.hText : Int) + 2))
  ++ [(55 + ((wrapText m.wText (maxTextWidth width) (quoteDecorated q.content)).length : Int)
          * ((m.hText : Int) + 12),
       55 + ((wrapText m.wText (maxTextWidth width) (quoteDecorated q.content)).length : Int)
          * ((m.hText : Int) + 12) + (m.hSmall : Int) + 2)]
  ++ (List.range (wrapText m.wSmall (maxTextWidth width) q.reason).length).map
      (fun (j : Nat) => (95 + ((wrapText m.wText (maxTextWidth width) (quoteDecorated q.content)).length : Int)
                    * ((m.hText : Int) + 12) + (j : Int) * ((m.hSmall : Int) + 8),
                 95 + ((wrapText m.wText (maxTextWidth width) (quoteDecorated q.content)).length : Int)
                    * ((m.hText : Int) + 12) + (j : Int) * ((m.hSmall : Int) + 8) + (m.hSmall : Int) + 1))

/-- Primitives of a sequence of cards painted from relative offset `t`,
each advancing the cursor by its height plus `CARD_SPACING` (the loops at
source lines 1395-1526 and 1609-1708). -/
def cardsPrims {α : Type} (f : α → List (Int × Int)) (hgt : α → Nat) :
    Nat → List α → List (Int × Int)
  | _, [] => []
  | t, it :: its =>
    (f it).map (fun p => (p.1 + (t : Int), p.2 + (t : Int)))
      ++ cardsPrims f hgt (t + hgt it + CARD_SPACING) its

/-- Titles-block primitives (paint pass, source lines 1320-1528), relative
to the block offset: divider, outlined section heading at relative 70,
`decoration3` and its mirror at relative 50 (pasted height ≤ 120), then
the painted title cards starting at relative 190. -/
def titlesBlockPrims (m : FontMetrics) (width : Nat) (uts : List TitleItem) : List (Int × Int) :=
  [dividerPrim, colorfulTextPrim 70 m.hSection, glowPrim 50 120, glowPrim 50 120]
  ++ cardsPrims (titleCardPrims m width) (titleCardHeight m width) 190 (paintedTitleCards uts)

/-- Quotes-block primitives (paint pass, source lines 1531-1708), relative
to the block offset: divider, outlined section heading at relative 70,
`decoration4` and its mirror at relative 50, the quote decoration at
relative 75 (pasted height ≤ 50), then the painted quote cards starting
at relative 190. -/
def quotesBlockPrims (m : FontMetrics) (width : Nat) (qs : List QuoteItem) : List (Int × Int) :=
  [dividerPrim, colorfulTextPrim 70 m.hSection, glowPrim 50 120, glowPrim 50 120,
   glowPrim 75 50]
  ++ cardsPrims (quoteCardPrims m width) (quoteCardHeight m width) 190 (paintedQuoteCards qs)

/-- Footer-block primitives (paint pass, source lines 1710-1753), relative
to the block offset: after the 50 px gap, `decoration2` at relative 70
(pasted height ≤ 180) and four bubbles (pasted height ≤ 60). -/
def footerPrims : List (Int × Int) :=
  [glowPrim 70 180, glowPrim 70 60, glowPrim 80 60, glowPrim 150 60, glowPrim 160 60]

/-- Cursor advance of the chart section in the paint pass (source lines
1197, 1216, 1253): divider 40 + heading 100 + card 250 + gap 50. -/
def paintChartAdvance : Nat := 40 + 100 + 250 + 50

/-- Cursor advance of the summary section in the paint pass (source lines
1257, 1317): divider 40 + card content + gap 50. -/
def paintSummaryAdvance (m : FontMetrics) (width : Nat) (s : List Char) : Nat :=
  40 + cardContentHeight m width s + 50

/-- Cursor advance of the titles section in the paint pass (source lines
1323, 1385, 1526, 1528): divider 40 + heading 150 + painted cards + 30. -/
def paintTitlesAdvance (m : FontMetrics) (width : Nat) (uts : List TitleItem) : Nat :=
  40 + 150 + ((paintedTitleCards uts).map
      (fun it => titleCardHeight m width it + CARD_SPACING)).sum + 30

/-- Cursor advance of the quotes section in the paint pass (source lines
1534, 1606, 1708): divider 40 + heading 150 + painted cards. -/
def paintQuotesAdvance (m : FontMetrics) (width : Nat) (qs : List QuoteItem) : Nat :=
  40 + 150 + ((paintedQuoteCards qs).map
      (fun q => quoteCardHeight m width q + CARD_SPACING)).sum

/-- The paint pass of `generate_summary_image` (source lines 1037-1753) as
a sequence of blocks: the cursor starts at 0, the header ends at
`y = header_height = 300` (line 1191), each conditional section advances
the cursor by its own paint-pass increments, and the footer occupies the
remainder of the canvas. -/
def paintBlocks (m : FontMetrics) (width : Nat) (req : RenderRequest) : List Block :=
  ⟨.header, 0, 300, headerPrims m req⟩ ::
  ((if chartShown req.hourlyDistribution then
      [⟨.hourlyChart, 300, paintChartAdvance, chartBlockPrims m req.hourlyDistribution⟩]
    else [])
  ++ ⟨.summaryCard,
      300 + (if chartShown req.hourlyDistribution then paintChartAdvance else 0),
      paintSummaryAdvance m width req.summaryText,
      summaryBlockPrims m width req.summaryText⟩ ::
  ((if req.userTitles.isEmpty then []
    else
      [⟨.titles,
        300 + (if chartShown req.hourlyDistribution then paintChartAdvance else 0)
          + paintSummaryAdvance m width req.summaryText,
        paintTitlesAdvance m width req.userTitles,
        titlesBlockPrims m width req.userTitles⟩])
  ++ ((if req.goldenQuotes.isEmpty then []
      else
        [⟨.quotes,
          300 + (if chartShown req.hourlyDistribution then paintChartAdvance else 0)
            + paintSummaryAdvance m width req.summaryText
            + (if req.userTitles.isEmpty then 0 else paintTitlesAdvance m width req.userTitles),
          paintQuotesAdvance m width req.goldenQuotes,
          quotesBlockPrims m width req.goldenQuotes⟩])
  ++ [⟨.footer,
       300 + (if chartShown req.hourlyDistribution then paintChartAdvance else 0)
         + paintSummaryAdvance m width req.summaryText
         + (if req.userTitles.isEmpty then 0 else paintTitlesAdvance m width req.userTitles)
         + (if req.goldenQuotes.isEmpty then 0 else paintQuotesAdvance m width req.goldenQuotes),
       footerHeight, footerPrims⟩])))

/-- The paint cursor, chained: each block starts where the previous one
ended. -/
def chainedFrom : Nat → List Block → Bool
  | _, [] => true
  | n, b :: bs => (b.offset == n) && chainedFrom (n + b.height) bs

/-- Every listed value is at most the running maximum. -/
theorem le_foldr_max (l : List Nat) : ∀ x ∈ l, x ≤ l.foldr max 0 := by
  induction l with
  | nil => intro x hx; simp at hx
  | cons a l ih =>
    intro x hx
    rcases List.mem_cons.mp hx with rfl | hx
    · exact le_max_left _ _
    · exact le_trans (ih x hx) (le_max_right _ _)

/-- A nonzero running maximum is attained by a listed value. -/
theorem foldr_max_mem (l : List Nat) (h : l.foldr max 0 ≠ 0) : l.foldr max 0 ∈ l := by
  induction l with
  | nil => simp at h
  | cons a l ih =>
    rcases le_total (l.foldr max 0) a with hle | hle
    · simp only [List.foldr_cons, max_eq_left hle]
      exact List.mem_cons_self a l
    · simp only [List.foldr_cons, max_eq_right hle] at h ⊢
      exact List.mem_cons_of_mem a (ih h)

/-- `max_count` is positive. -/
theorem maxCount_pos (d : List (Nat × Nat)) : 1 ≤ maxCount d :=
  le_max_left _ _

/-- Every count looked up in the dict is at most `max_count`. -/
theorem dictGet_le_maxCount (d : List (Nat × Nat)) (k : Nat) :
    dictGet d k ≤ maxCount d := by
  rcases hf : d.find? (fun p => p.1 == k) with _ | p
  · simp [dictGet, hf, maxCount]
  · have hmem : p ∈ d := List.mem_of_find?_eq_some hf
    have hv : p.2 ∈ dictValues d := List.mem_map_of_mem Prod.snd hmem
    have hle : p.2 ≤ (dictValues d).foldr max 0 := le_foldr_max _ _ hv
    simp only [dictGet, hf, Option.map_some', Option.getD_some, maxCount]
    omega

/-- Every hourly bar is at most `available_height` = 65 pixels tall. -/
theorem barHeight_le (d : List (Nat × Nat)) (h : Nat) : barHeight d 65 h ≤ 65 := by
  rw [barHeight]
  refine max_le (by omega) ?_
  calc 65 * dictGet d h / maxCount d
      ≤ 65 * maxCount d / maxCount d :=
        Nat.div_le_div_right (Nat.mul_le_mul_left 65 (dictGet_le_maxCount d h))
    _ = 65 := Nat.mul_div_cancel 65 (maxCount_pos d)

/-- All header primitives stay inside the header's 300 px span. -/
theorem headerPrims_bound (m : FontMetrics) (req : RenderRequest)
    (h1 : m.hTitle ≤ 210) (h3 : m.hSmall ≤ 80) :
    ∀ p ∈ headerPrims m req, 0 ≤ p.1 ∧ p.2 ≤ (300 : Int) := by
  intro p hp
  by_cases hs : statsShown req = true <;>
    simp [headerPrims, hs, glowPrim, colorfulTextPrim] at hp <;>
    rcases hp with rfl | rfl | rfl | rfl | rfl | rfl | rfl | rfl <;>
    constructor <;> simp <;> omega

/-- All hourly-chart primitives stay inside the chart block's 440 px span. -/
theorem chartBlockPrims_bound (m : FontMetrics) (d : List (Nat × Nat))
    (h2 : m.hSection ≤ 100) (h3 : m.hSmall ≤ 80) :
    ∀ p ∈ chartBlockPrims m d, 0 ≤ p.1 ∧ p.2 ≤ (440 : Int) := by
  intro p hp
  simp only [chartBlockPrims, dividerPrim, colorfulTextPrim, cardPrim,
    List.mem_append, List.mem_cons, List.mem_map, List.mem_filter,
    List.mem_range, List.not_mem_nil, or_false] at hp
  rcases hp with (((rfl | rfl | rfl | rfl | rfl) | ⟨h, hlt, rfl⟩) | ⟨h, hc, rfl⟩) |
    ⟨h, hc, rfl⟩ <;>
    (try have hb := barHeight_le d h) <;> refine ⟨?_, ?_⟩ <;> simp <;> omega


/-- One more full line advance stays within `n` line advances. -/
theorem succ_mul_le {i n : Nat} (X : Nat) (h : i < n) : i * X + X ≤ n * X := by
  have hm := Nat.mul_le_mul_right X h
  rwa [Nat.succ_mul] at hm

/-- All summary-section primitives stay inside the summary block's span. -/
theorem summaryBlockPrims_bound (m : FontMetrics) (width : Nat) (s : List Char) :
    ∀ p ∈ summaryBlockPrims m width s,
      0 ≤ p.1 ∧ p.2 ≤ (paintSummaryAdvance m width s : Int) := by
  intro p hp
  have hcch : 170 ≤ cardContentHeight m width s := by
    rw [cardContentHeight, CARD_PADDING]; omega
  rw [summaryBlockPrims] at hp
  rcases List.mem_append.mp hp with hfix | hline
  · simp only [dividerPrim, cardPrim, glowPrim, List.mem_cons, List.not_mem_nil,
      or_false] at hfix
    rcases hfix with rfl | rfl | rfl | rfl | rfl | rfl <;>
      refine ⟨?_, ?_⟩ <;> simp only [paintSummaryAdvance] <;> omega
  · obtain ⟨i, hi, rfl⟩ := List.mem_map.mp hline
    have hin : i < (summaryWrapped m width s).length := List.mem_range.mp hi
    have hm := succ_mul_le (m.hText + 18) hin
    zify at hm
    have h0 : (0 : Int) ≤ (i : Int) * ((m.hText : Int) + 18) := by positivity
    refine ⟨by omega, ?_⟩
    simp only [paintSummaryAdvance, cardContentHeight]
    push_cast
    omega

/-- All primitives of one title card stay inside the card's shadowed span. -/
theorem titleCardPrims_bound (m : FontMetrics) (width : Nat) (it : TitleItem) :
    ∀ p ∈ titleCardPrims m width it,
      -20 ≤ p.1 ∧ p.2 ≤ (titleCardHeight m width it : Int) + 26 := by
  intro p hp
  have h120 : 120 ≤ titleCardHeight m width it := le_max_right _ _
  have hA : 50 + m.hSubtitle + 25
      + (wrapText m.wSmall (maxTextWidth width) it.reason).length * (m.hSmall + 8) + 30
      ≤ titleCardHeight m width it := le_max_left _ _
  zify at hA
  have h0 : (0 : Int) ≤ ((wrapText m.wSmall (maxTextWidth width) it.reason).length : Int)
      * ((m.hSmall : Int) + 8) := by positivity
  rw [titleCardPrims] at hp
  rcases List.mem_append.mp hp with hfix | hline
  · simp only [cardPrim, List.mem_cons, List.not_mem_nil, or_false] at hfix
    rcases hfix with rfl | rfl | rfl | rfl | rfl | rfl <;>
      refine ⟨?_, ?_⟩ <;> omega
  · obtain ⟨j, hj, rfl⟩ := List.mem_map.mp hline
    have hjn : j < (wrapText m.wSmall (maxTextWidth width) it.reason).length :=
      List.mem_range.mp hj
    have hm := succ_mul_le (m.hSmall + 8) hjn
    zify at hm
    have h1 : (0 : Int) ≤ (j : Int) * ((m.hSmall : Int) + 8) := by positivity
    refine ⟨by omega, by omega⟩

/-- All primitives of one quote card stay inside the card's shadowed span. -/
theorem quoteCardPrims_bound (m : FontMetrics) (width : Nat) (q : QuoteItem)
    (h3 : m.hSmall ≤ 80) :
    ∀ p ∈ quoteCardPrims m width q,
      -20 ≤ p.1 ∧ p.2 ≤ (quoteCardHeight m width q : Int) + 26 := by
  intro p hp
  have h200 : 200 ≤ quoteCardHeight m width q := le_max_right _ _
  have hA : 50 + (wrapText m.wText (maxTextWidth width) (quoteDecorated q.content)).length
        * (m.hText + 12)
      + 50 + (wrapText m.wSmall (maxTextWidth width) q.reason).length * (m.hSmall + 8) + 40
      ≤ quoteCardHeight m width q := le_max_left _ _
  zify at hA
  have h0 : (0 : Int) ≤ ((wrapText m.wText (maxTextWidth width)
        (quoteDecorated q.content)).length : Int) * ((m.hText : Int) + 12) := by positivity
  have h0' : (0 : Int) ≤ ((wrapText m.wSmall (maxTextWidth width) q.reason).length : Int)
      * ((m.hSmall : Int) + 8) := by positivity
  rw [quoteCardPrims] at hp
  rcases List.mem_append.mp hp with hrest | hreason
  rotate_left
  · obtain ⟨j, hj, rfl⟩ := List.mem_map.mp hreason
    have hjn : j < (wrapText m.wSmall (maxTextWidth width) q.reason).length :=
      List.mem_range.mp hj
    have hm := succ_mul_le (m.hSmall + 8) hjn
    zify at hm
    have h1 : (0 : Int) ≤ (j : Int) * ((m.hSmall : Int) + 8) := by positivity
    refine ⟨by omega, by omega⟩
  rcases List.mem_append.mp hrest with hrest2 | hsender
  rotate_left
  · simp only [List.mem_cons, List.not_mem_nil, or_false] at hsender
    rw [hsender]
    refine ⟨by omega, by omega⟩
  rcases List.mem_append.mp hrest2 with hfix | hquote
  · simp only [cardPrim, glowPrim, List.mem_cons, List.not_mem_nil, or_false] at hfix
    rcases hfix with rfl | rfl | rfl | rfl | rfl <;>
      refine ⟨?_, ?_⟩ <;> omega
  · obtain ⟨j, hj, rfl⟩ := List.mem_map.mp hquote
    have hjn : j < (wrapText m.wText (maxTextWidth width)
        (quoteDecorated q.content)).length := List.mem_range.mp hj
    have hm := succ_mul_le (m.hText + 12) hjn
    zify at hm
    have h1 : (0 : Int) ≤ (j : Int) * ((m.hText : Int) + 12) := by positivity
    refine ⟨by omega, by omega⟩

/-- A sequence of cards whose primitives stay within each card's shadowed
span stays within the section span that starts 20 px above the first card
and ends after the last card's spacing. -/
theorem cardsPrims_bound {α : Type} (f : α → List (Int × Int)) (hgt : α → Nat)
    (hb : ∀ it, ∀ p ∈ f it, -20 ≤ p.1 ∧ p.2 ≤ (hgt it : Int) + 26) :
    ∀ (l : List α) (t : Nat), ∀ p ∈ cardsPrims f hgt t l,
      (t : Int) - 20 ≤ p.1
        ∧ p.2 ≤ (t : Int) + ((l.map (fun it => hgt it + CARD_SPACING)).sum : Int) := by
  intro l
  induction l with
  | nil => intro t p hp; simp [cardsPrims] at hp
  | cons a l ih =>
    intro t p hp
    rw [cardsPrims] at hp
    rcases List.mem_append.mp hp with h | h
    · obtain ⟨r, hr, rfl⟩ := List.mem_map.mp h
      have hra := hb a r hr
      simp only [List.map_cons, List.sum_cons, CARD_SPACING]
      omega
    · have hrec := ih (t + hgt a + CARD_SPACING) p h
      simp only [List.map_cons, List.sum_cons, CARD_SPACING] at hrec ⊢
      omega

/-- All titles-section primitives stay inside the titles block's span. -/
theorem titlesBlockPrims_bound (m : FontMetrics) (width : Nat) (uts : List TitleItem)
    (h2 : m.hSection ≤ 100) :
    ∀ p ∈ titlesBlockPrims m width uts,
      0 ≤ p.1 ∧ p.2 ≤ (paintTitlesAdvance m width uts : Int) := by
  intro p hp
  rw [titlesBlockPrims] at hp
  rcases List.mem_append.mp hp with hfix | hcards
  · simp only [dividerPrim, colorfulTextPrim, glowPrim, List.mem_cons,
      List.not_mem_nil, or_false] at hfix
    rcases hfix with rfl | rfl | rfl | rfl <;>
      refine ⟨?_, ?_⟩ <;> simp only [paintTitlesAdvance] <;> omega
  · have hcb := cardsPrims_bound (titleCardPrims m width) (titleCardHeight m width)
      (fun it => titleCardPrims_bound m width it) (paintedTitleCards uts) 190 p hcards
    simp only [paintTitlesAdvance]
    omega

/-- A nonempty quote list contributes at least one full card advance. -/
theorem quotesCardsSum_ge (m : FontMetrics) (width : Nat) (q : QuoteItem)
    (qs : List QuoteItem) :
    235 ≤ ((paintedQuoteCards (q :: qs)).map
      (fun x => quoteCardHeight m width x + CARD_SPACING)).sum := by
  have h200 : 200 ≤ quoteCardHeight m width q := le_max_right _ _
  simp only [paintedQuoteCards, List.take_succ_cons, List.map_cons, List.sum_cons,
    CARD_SPACING]
  omega

/-- All quotes-section primitives stay inside the quotes block's span. -/
theorem quotesBlockPrims_bound (m : FontMetrics) (width : Nat) (qs : List QuoteItem)
    (h2 : m.hSection ≤ 100) (h3 : m.hSmall ≤ 80) (hne : qs.isEmpty = false) :
    ∀ p ∈ quotesBlockPrims m width qs,
      0 ≤ p.1 ∧ p.2 ≤ (paintQuotesAdvance m width qs : Int) := by
  intro p hp
  obtain ⟨q, qs', rfl⟩ : ∃ q qs', qs = q :: qs' := by
    cases qs with
    | nil => simp at hne
    | cons q qs' => exact ⟨q, qs', rfl⟩
  have hsum := quotesCardsSum_ge m width q qs'
  rw [quotesBlockPrims] at hp
  rcases List.mem_append.mp hp with hfix | hcards
  · simp only [dividerPrim, colorfulTextPrim, glowPrim, List.mem_cons,
      List.not_mem_nil, or_false] at hfix
    rcases hfix with rfl | rfl | rfl | rfl | rfl <;>
      refine ⟨?_, ?_⟩ <;> simp only [paintQuotesAdvance] <;> omega
  · have hcb := cardsPrims_bound (quoteCardPrims m width) (quoteCardHeight m width)
      (fun x => quoteCardPrims_bound m width x h3) (paintedQuoteCards (q :: qs')) 190 p hcards
    simp only [paintQuotesAdvance]
    omega

/-- All footer primitives stay inside the footer's 280 px span. -/
theorem footerPrims_bound : ∀ p ∈ footerPrims, 0 ≤ p.1 ∧ p.2 ≤ (280 : Int) := by
  decide

/-- Claim C1: for every render request, the allocated canvas height
(`total_height`, source line 917) equals the sum of the per-block heights
computed before any pixel is drawn, the paint cursor reaches each block
exactly at the cumulative offset of the preceding blocks, and every
painted primitive of a block stays inside the block's
`[offset, offset + height)` vertical span (primitives modelled by their
vertical extents, under realistic bounds on the font line heights). -/
theorem c1_height_paint_consistency (m : FontMetrics) (width : Nat) (req : RenderRequest)
    (h1 : m.hTitle ≤ 210) (h2 : m.hSection ≤ 100) (h3 : m.hSmall ≤ 80) :
    totalHeight m width req = ((paintBlocks m width req).map Block.height).sum
    ∧ chainedFrom 0 (paintBlocks m width req) = true
    ∧ ∀ b ∈ paintBlocks m width req, ∀ p ∈ b.prims, 0 ≤ p.1 ∧ p.2 ≤ (b.height : Int) := by
  refine ⟨?_, ?_, ?_⟩
  · cases hc : chartShown req.hourlyDistribution <;>
    cases ht : req.userTitles.isEmpty <;>
    cases hq : req.goldenQuotes.isEmpty <;>
      simp only [paintBlocks, totalHeight, headerHeight, footerHeight, hourlyChartHeight,
        summaryCardHeight, titlesSectionHeight, quotesSectionHeight, paintChartAdvance,
        paintSummaryAdvance, paintTitlesAdvance, paintQuotesAdvance, measuredTitleCards,
        paintedTitleCards, measuredQuoteCards, paintedQuoteCards, hc, ht, hq,
        if_true, if_false, Bool.false_eq_true, List.map_cons, List.map_nil,
        List.sum_cons, List.sum_nil, List.nil_append, List.cons_append,
        List.append_nil, List.singleton_append] <;> omega
  · cases hc : chartShown req.hourlyDistribution <;>
    cases ht : req.userTitles.isEmpty <;>
    cases hq : req.goldenQuotes.isEmpty <;>
      simp only [paintBlocks, chainedFrom, hc, ht, hq, if_true, if_false,
        Bool.false_eq_true, List.nil_append, List.cons_append, List.append_nil,
        List.singleton_append, Bool.and_eq_true, beq_iff_eq, true_and, and_true,
        and_self, Nat.add_zero, Nat.zero_add]
  · intro b hb p hp
    rw [paintBlocks] at hb
    simp only [List.mem_cons, List.mem_append, List.mem_singleton] at hb
    rcases hb with rfl | hb
    · exact headerPrims_bound m req h1 h3 p hp
    rcases hb with hchart | hb
    · cases hcc : chartShown req.hourlyDistribution
      · rw [hcc] at hchart; simp at hchart
      · rw [hcc] at hchart
        simp only [if_true, List.mem_singleton] at hchart
        subst hchart
        exact chartBlockPrims_bound m req.hourlyDistribution h2 h3 p hp
    rcases hb with rfl | hb
    · exact summaryBlockPrims_bound m width req.summaryText p hp
    rcases hb with htl | hb
    · cases htc : req.userTitles.isEmpty
      · rw [htc] at htl
        simp only [Bool.false_eq_true, if_false, List.mem_singleton] at htl
        subst htl
        exact titlesBlockPrims_bound m width req.userTitles h2 p hp
      · rw [htc] at htl; simp at htl
    rcases hb with hql | hb
    · cases hqc : req.goldenQuotes.isEmpty
      · rw [hqc] at hql
        simp only [Bool.false_eq_true, if_false, List.mem_singleton] at hql
        subst hql
        exact quotesBlockPrims_bound m width req.goldenQuotes h2 h3 hqc p hp
      · rw [hqc] at hql; simp at hql
    rcases hb with rfl | hb
    · exact footerPrims_bound p hp
    · simp at hb

/-- Characterization of the block kinds the paint pass emits: conditional
sections appear only when their condition holds. -/
theorem paintBlocks_kinds (m : FontMetrics) (width : Nat) (req : RenderRequest) :
    ∀ b ∈ paintBlocks m width req,
      b.kind = BlockKind.header
      ∨ (b.kind = BlockKind.hourlyChart ∧ chartShown req.hourlyDistribution = true)
      ∨ b.kind = BlockKind.summaryCard
      ∨ (b.kind = BlockKind.titles ∧ req.userTitles.isEmpty = false)
      ∨ (b.kind = BlockKind.quotes ∧ req.goldenQuotes.isEmpty = false)
      ∨ b.kind = BlockKind.footer := by
  intro b hb
  rw [paintBlocks] at hb
  simp only [List.mem_cons, List.mem_append, List.mem_singleton] at hb
  rcases hb with rfl | hb
  · exact Or.inl rfl
  rcases hb with hchart | hb
  · cases hcc : chartShown req.hourlyDistribution
    · rw [hcc] at hchart; simp at hchart
    · rw [hcc] at hchart
      simp only [if_true, List.mem_singleton] at hchart
      subst hchart
      exact Or.inr (Or.inl ⟨rfl, rfl⟩)
  rcases hb with rfl | hb
  · exact Or.inr (Or.inr (Or.inl rfl))
  rcases hb with htl | hb
  · cases htc : req.userTitles.isEmpty
    · rw [htc] at htl
      simp only [Bool.false_eq_true, if_false, List.mem_singleton] at htl
      subst htl
      exact Or.inr (Or.inr (Or.inr (Or.inl ⟨rfl, rfl⟩)))
    · rw [htc] at htl; simp at htl
  rcases hb with hql | hb
  · cases hqc : req.goldenQuotes.isEmpty
    · rw [hqc] at hql
      simp only [Bool.false_eq_true, if_false, List.mem_singleton] at hql
      subst hql
      exact Or.inr (Or.inr (Or.inr (Or.inr (Or.inl ⟨rfl, rfl⟩))))
    · rw [hqc] at hql; simp at hql
  rcases hb with rfl | hb
  · exact Or.inr (Or.inr (Or.inr (Or.inr (Or.inr rfl))))
  · simp at hb

/-- The chart condition holds exactly when some hour bucket is nonzero. -/
theorem chartShown_iff (d : List (Nat × Nat)) :
    chartShown d = true ↔ ∃ p ∈ d, p.2 ≠ 0 := by
  rw [chartShown]
  simp only [Bool.and_eq_true, Bool.not_eq_true', List.any_eq_true, dictValues,
    List.mem_map, bne_iff_ne]
  constructor
  · rintro ⟨-, x, ⟨p, hp, rfl⟩, hx⟩
    exact ⟨p, hp, hx⟩
  · rintro ⟨p, hp, hx⟩
    refine ⟨?_, p.2, ⟨p, hp, rfl⟩, hx⟩
    cases d
    · simp at hp
    · rfl

/-- Claim C3: the layout pass measures `user_titles[:4]` (resp.
`golden_quotes[:4]`) and the paint pass paints exactly the same cards —
`min(N, 4)` of each — and the per-card heights summed by the layout are
exactly the per-card heights painted. -/
theorem c3_cap_consistency (m : FontMetrics) (width : Nat)
    (uts : List TitleItem) (qs : List QuoteItem) :
    measuredTitleCards uts = paintedTitleCards uts
    ∧ (measuredTitleCards uts).length = min uts.length 4
    ∧ (paintedTitleCards uts).length = min uts.length 4
    ∧ ((measuredTitleCards uts).map (fun it => titleCardHeight m width it + CARD_SPACING)).sum
      = ((paintedTitleCards uts).map (fun it => titleCardHeight m width it + CARD_SPACING)).sum
    ∧ measuredQuoteCards qs = paintedQuoteCards qs
    ∧ (measuredQuoteCards qs).length = min qs.length 4
    ∧ (paintedQuoteCards qs).length = min qs.length 4
    ∧ ((measuredQuoteCards qs).map (fun q => quoteCardHeight m width q + CARD_SPACING)).sum
      = ((paintedQuoteCards qs).map (fun q => quoteCardHeight m width q + CARD_SPACING)).sum := by
  refine ⟨rfl, ?_, ?_, rfl, rfl, ?_, ?_, rfl⟩ <;>
    simp [measuredTitleCards, paintedTitleCards, measuredQuoteCards, paintedQuoteCards,
      List.length_take, Nat.min_comm]

/-- Claim C4: with zero title cards the titles section contributes zero
height and no titles block is painted (and likewise for quotes), and for
any quote list the total height exceeds the quote-free total height by
exactly the quote-section height. -/
theorem c4_empty_section_omission (m : FontMetrics) (width : Nat) (req : RenderRequest) :
    (req.userTitles = [] →
      titlesSectionHeight m width req.userTitles = 0
      ∧ ∀ b ∈ paintBlocks m width req, b.kind ≠ BlockKind.titles)
    ∧ (req.goldenQuotes = [] →
      quotesSectionHeight m width req.goldenQuotes = 0
      ∧ ∀ b ∈ paintBlocks m width req, b.kind ≠ BlockKind.quotes)
    ∧ (∀ qs : List QuoteItem,
      totalHeight m width { req with goldenQuotes := qs }
        = totalHeight m width { req with goldenQuotes := [] }
          + quotesSectionHeight m width qs) := by
  refine ⟨?_, ?_, ?_⟩
  · intro ht
    refine ⟨by simp [titlesSectionHeight, ht], ?_⟩
    intro b hb hk
    rcases paintBlocks_kinds m width req b hb with h | ⟨h, _⟩ | h | ⟨h, he⟩ | ⟨h, _⟩ | h <;>
      rw [hk] at h <;> try exact BlockKind.noConfusion h
    rw [ht] at he
    simp at he
  · intro hq
    refine ⟨by simp [quotesSectionHeight, hq], ?_⟩
    intro b hb hk
    rcases paintBlocks_kinds m width req b hb with h | ⟨h, _⟩ | h | ⟨h, _⟩ | ⟨h, he⟩ | h <;>
      rw [hk] at h <;> try exact BlockKind.noConfusion h
    rw [hq] at he
    simp at he
  · intro qs
    simp only [totalHeight, quotesSectionHeight]
    simp only [List.isEmpty_nil, if_true]
    ring

/-- Witness for `c4_empty_section_omission` at a request with no title
cards. -/
theorem c4_empty_section_omission_witness :
    titlesSectionHeight
      { wText := fun l => 28 * l.length, wSmall := fun l => 24 * l.length,
        hTitle := 64, hSection := 46, hSubtitle := 33, hText := 29, hSmall := 25 }
      1200
      (RenderRequest.mk [] [] [] 0 0 [] [] []).userTitles = 0
    ∧ ∀ b ∈ paintBlocks
        { wText := fun l => 28 * l.length, wSmall := fun l => 24 * l.length,
          hTitle := 64, hSection := 46, hSubtitle := 33, hText := 29, hSmall := 25 }
        1200 (RenderRequest.mk [] [] [] 0 0 [] [] []),
        b.kind ≠ BlockKind.titles :=
  (c4_empty_section_omission _ 1200 (RenderRequest.mk [] [] [] 0 0 [] [] [])).1 rfl

/-- Claim C5: the hourly chart block contributes its fixed 440 px height
and is painted exactly when some hour bucket of the supplied distribution
is nonzero; otherwise it contributes zero height and no chart block is
painted. -/
theorem c5_chart_inclusion (m : FontMetrics) (width : Nat) (req : RenderRequest) :
    (hourlyChartHeight req.hourlyDistribution
      = if ∃ p ∈ req.hourlyDistribution, p.2 ≠ 0 then 440 else 0)
    ∧ ((∃ b ∈ paintBlocks m width req, b.kind = BlockKind.hourlyChart)
      ↔ ∃ p ∈ req.hourlyDistribution, p.2 ≠ 0) := by
  constructor
  · rw [hourlyChartHeight]
    by_cases hex : ∃ p ∈ req.hourlyDistribution, p.2 ≠ 0
    · rw [if_pos ((chartShown_iff req.hourlyDistribution).mpr hex), if_pos hex]
    · rw [if_neg hex, if_neg]
      intro hc
      exact hex ((chartShown_iff req.hourlyDistribution).mp hc)
  · constructor
    · rintro ⟨b, hb, hk⟩
      rcases paintBlocks_kinds m width req b hb with h | ⟨-, hc⟩ | h | ⟨h, -⟩ | ⟨h, -⟩ | h <;>
        first
          | exact (chartShown_iff req.hourlyDistribution).mp hc
          | (rw [hk] at h; exact BlockKind.noConfusion h)
    · intro hex
      have hc := (chartShown_iff req.hourlyDistribution).mpr hex
      refine ⟨⟨BlockKind.hourlyChart, 300, paintChartAdvance,
        chartBlockPrims m req.hourlyDistribution⟩, ?_, rfl⟩
      rw [paintBlocks]
      simp [hc]

/-- On a dict with pairwise-distinct keys, looking up the key of a listed
entry returns that entry's value. -/
theorem dictGet_eq_of_mem (d : List (Nat × Nat)) (hnodup : (d.map Prod.fst).Nodup) :
    ∀ p ∈ d, dictGet d p.1 = p.2 := by
  induction d with
  | nil => intro p hp; simp at hp
  | cons q d ih =>
    intro p hp
    rcases List.mem_cons.mp hp with rfl | hp
    · simp [dictGet, List.find?]
    · have hq : q.1 ∉ d.map Prod.fst := (List.nodup_cons.mp hnodup).1
      have hne : (q.1 == p.1) = false := by
        rw [beq_eq_false_iff_ne]
        intro he
        exact hq (he ▸ List.mem_map_of_mem Prod.fst hp)
      have htl := ih (List.nodup_cons.mp hnodup).2 p hp
      simp only [dictGet, List.find?, hne] at htl ⊢
      exact htl

/-- Claim C6: on any hour→count dict with keys among 0..23 and some
nonzero count (the condition under which the render pipeline calls
`_draw_hourly_chart`), every bar's rendered height is
`max(3, ⌊available_height · count / max_count⌋)` with `available_height`
= 65 for the painted chart area, `max_count` is attained by (and bounds)
the 24 hourly counts, the hour holding the maximum count gets a bar at
least as tall as every other bar, and a zero-count hour still gets the
3-pixel floor. -/
theorem c6_bar_heights (d : List (Nat × Nat))
    (hkeys : ∀ p ∈ d, p.1 < 24) (hnodup : (d.map Prod.fst).Nodup)
    (hnz : ∃ p ∈ d, p.2 ≠ 0) :
    (∀ h : Nat, barHeight d 65 h = max 3 (65 * dictGet d h / maxCount d))
    ∧ (∀ h : Nat, dictGet d h ≤ maxCount d)
    ∧ (∃ h : Nat, h < 24 ∧ dictGet d h = maxCount d)
    ∧ (∀ h hm : Nat, dictGet d hm = maxCount d →
        barHeight d 65 h ≤ barHeight d 65 hm)
    ∧ (∀ h : Nat, dictGet d h = 0 → barHeight d 65 h = 3) := by
  obtain ⟨p0, hp0, hp0nz⟩ := hnz
  have hfold : 1 ≤ (dictValues d).foldr max 0 := by
    have := le_foldr_max (dictValues d) p0.2 (List.mem_map_of_mem Prod.snd hp0)
    omega
  have hM : maxCount d = (dictValues d).foldr max 0 := by
    rw [maxCount]
    omega
  refine ⟨fun _ => rfl, dictGet_le_maxCount d, ?_, ?_, ?_⟩
  · have hmem : (dictValues d).foldr max 0 ∈ dictValues d :=
      foldr_max_mem (dictValues d) (by omega)
    obtain ⟨q, hq, hqv⟩ := List.mem_map.mp hmem
    refine ⟨q.1, hkeys q hq, ?_⟩
    rw [dictGet_eq_of_mem d hnodup q hq, hqv, hM]
  · intro h hm hmax
    have hmb : barHeight d 65 hm = 65 := by
      rw [barHeight, hmax, Nat.mul_div_cancel 65 (maxCount_pos d)]
      omega
    rw [hmb]
    exact barHeight_le d h
  · intro h h0
    rw [barHeight, h0]
    simp

/-- Witness for `c6_bar_heights` on the distribution {9 ↦ 5, 14 ↦ 3}: the
maximum hour 9 gets a bar at least as tall as hour 14's, and a zero-count
hour renders at the 3 px floor. -/
theorem c6_bar_heights_witness :
    (∀ p ∈ [((9 : Nat), (5 : Nat)), (14, 3)], p.1 < 24)
    ∧ barHeight [(9, 5), (14, 3)] 65 14 ≤ barHeight [(9, 5), (14, 3)] 65 9
    ∧ barHeight [(9, 5), (14, 3)] 65 2 = 3 :=
  ⟨by decide,
    (c6_bar_heights [(9, 5), (14, 3)] (by decide) (by decide)
      ⟨(9, 5), by decide, by decide⟩).2.2.2.1 14 9 (by decide),
    (c6_bar_heights [(9, 5), (14, 3)] (by decide) (by decide)
      ⟨(9, 5), by decide, by decide⟩).2.2.2.2 2 (by decide)⟩

/-- `FontConfig.FONT_PATHS` (constants.py lines 14-22): the prioritized
font candidate list. -/
def fontPaths : List String :=
  ["/usr/share/fonts/truetype/wqy/wqy-zenhei.ttc",
   "/usr/share/fonts/truetype/droid/DroidSansFallbackFull.ttf",
   "/usr/share/fonts/truetype/wqy/wqy-microhei.ttc",
   "/usr/share/fonts/truetype/noto/NotoSansCJK-Regular.ttc",
   "/usr/share/fonts/opentype/noto/NotoSansCJK-Regular.ttc",
   "/System/Library/Fonts/PingFang.ttc",
   "C:/Windows/Fonts/msyh.ttc"]

/-- `SummaryImageGenerator._get_font` (source lines 64-74): walk the
candidate list; a path that exists (`pathExists`) is loaded
(`loadFont`, `none` modelling the caught `ImageFont.truetype` exception);
the first successful load is returned; exhausting the list raises
(`none` result models the final `RuntimeError`). -/
def getFont {Font : Type} (pathExists : String → Bool) (loadFont : String → Option Font) :
    List String → Option Font
  | [] => none
  | p :: ps =>
    if pathExists p then
      match loadFont p with
      | some f => some f
      | none => getFont pathExists loadFont ps
    else getFont pathExists loadFont ps

/-- `_get_font` returns the load of the first candidate that exists and
loads. -/
theorem getFont_eq_find {Font : Type} (e : String → Bool) (l : String → Option Font) :
    ∀ ps : List String,
      getFont e l ps = (ps.find? (fun p => e p && (l p).isSome)).bind l := by
  intro ps
  induction ps with
  | nil => rfl
  | cons p ps ih =>
    by_cases he : e p = true
    · rcases hl : l p with _ | f
      · rw [getFont, if_pos he, hl, ih, List.find?_cons_of_neg]
        simp [he, hl]
      · rw [getFont, if_pos he, hl, List.find?_cons_of_pos]
        · simp [hl]
        · simp [he, hl]
    · rw [getFont, if_neg he, ih, List.find?_cons_of_neg]
      simp [he]

/-- Claim C7: `_get_font` raises (returns no font) exactly when every path
of `FONT_PATHS` is missing or fails to load; otherwise it returns the
font loaded from the first path that exists and loads. -/
theorem c7_get_font_semantics (Font : Type) (e : String → Bool) (l : String → Option Font) :
    (getFont e l fontPaths = none ↔ ∀ p ∈ fontPaths, e p = true → l p = none)
    ∧ getFont e l fontPaths
      = (fontPaths.find? (fun p => e p && (l p).isSome)).bind l := by
  refine ⟨?_, getFont_eq_find e l fontPaths⟩
  rw [getFont_eq_find e l fontPaths]
  constructor
  · intro hn p hp hep
    rcases hf : fontPaths.find? (fun p => e p && (l p).isSome) with _ | q
    · have hq := List.find?_eq_none.mp hf p hp
      simp only [hep, Bool.true_and, Bool.not_eq_true] at hq
      exact Option.not_isSome_iff_eq_none.mp (by simp [hq])
    · rw [hf] at hn
      have hcond := List.find?_some hf
      simp only [Option.some_bind] at hn
      simp [hn] at hcond
  · intro hall
    rcases hf : fontPaths.find? (fun p => e p && (l p).isSome) with _ | q
    · rfl
    · have hcond := List.find?_some hf
      have hmem := List.mem_of_find?_eq_some hf
      simp only [Bool.and_eq_true] at hcond
      have := hall q hmem hcond.1
      simp [this] at hcond

/-- `SummaryImageGenerator._add_decoration_with_glow` (source lines
421-480) at the level of its control flow: a decoration path that does not
exist returns the input image unchanged (line 438-439); otherwise the
drawing body (open, resize, glow, paste — abstracted as `renderDeco`,
returning `none` when it throws) runs under `try`, any failure being
caught and the input image returned (lines 478-480). -/
def addDecorationWithGlow {Img : Type} (pathExists : String → Bool)
    (renderDeco : String → Img → Option Img) (img : Img) (decoPath : String) : Img :=
  if pathExists decoPath then
    match renderDeco decoPath img with
    | some r => r
    | none => img
  else img

/-- `SummaryImageGenerator._add_corner_decorations` (source lines 616-663),
with the same missing-path guard (lines 631-632) and catch-all `except`
returning the input image (lines 661-663). -/
def addCornerDecorations {Img : Type} (pathExists : String → Bool)
    (renderCorners : String → Img → Option Img) (img : Img) (cornerPath : String) : Img :=
  if pathExists cornerPath then
    match renderCorners cornerPath img with
    | some r => r
    | none => img
  else img

/-- Claim C8: a decoration asset path that does not exist leaves the image
of either decoration operation unchanged (and, the embedding being total,
never aborts the render). -/
theorem c8_missing_decoration_harmless (Img : Type) (pathExists : String → Bool)
    (renderDeco renderCorners : String → Img → Option Img) (img : Img)
    (decoPath cornerPath : String)
    (hd : pathExists decoPath = false) (hc : pathExists cornerPath = false) :
    addDecorationWithGlow pathExists renderDeco img decoPath = img
    ∧ addCornerDecorations pathExists renderCorners img cornerPath = img := by
  rw [addDecorationWithGlow, addCornerDecorations, hd, hc]
  exact ⟨rfl, rfl⟩

/-- Witness for `c8_missing_decoration_harmless` with a concrete absent
filesystem. -/
theorem c8_missing_decoration_harmless_witness :
    (fun _ : String => false) "decorations/decoration1.png" = false
    ∧ (addDecorationWithGlow (fun _ => false) (fun _ _ => none) (0 : Nat)
        "decorations/decoration1.png" = 0
      ∧ addCornerDecorations (fun _ => false) (fun _ _ => none) (0 : Nat)
        "decorations/decoration_corner.png" = 0) :=
  ⟨rfl, c8_missing_decoration_harmless Nat (fun _ => false) (fun _ _ => none)
    (fun _ _ => none) 0 "decorations/decoration1.png" "decorations/decoration_corner.png"
    rfl rfl⟩

/-- The observable render output of one `generate_summary_image` call: the
canvas dimensions, the painted blocks, and the seed used for the
decorative background noise. -/
structure RenderOutput where
  width : Nat
  height : Nat
  blocks : List Block
  noiseSeed : Nat
deriving Repr

/-- The layout-observable behaviour of `generate_summary_image` given the
ambient state `randomState` of Python's global `random` module: the call
executes `random.seed(42)` (source line 942) before drawing any background
noise, so the ambient state is discarded and the noise seed is always 42;
the canvas height and blocks depend only on the request and font
metrics. -/
def generateRender (m : FontMetrics) (randomState : Nat) (width : Nat)
    (req : RenderRequest) : RenderOutput :=
  { width := width
    height := totalHeight m width req
    blocks := paintBlocks m width req
    noiseSeed := 42 }

/-- Claim C9: two renders of the same input agree on output dimensions and
block offsets regardless of the ambient random state, the decorative noise
being drawn from the fixed seed 42. -/
theorem c9_deterministic_layout (m : FontMetrics) (width : Nat) (req : RenderRequest)
    (s1 s2 : Nat) :
    generateRender m s1 width req = generateRender m s2 width req
    ∧ (generateRender m s1 width req).height = totalHeight m width req
    ∧ ((generateRender m s1 width req).blocks).map Block.offset
      = (paintBlocks m width req).map Block.offset
    ∧ (generateRender m s1 width req).noiseSeed = 42 :=
  ⟨rfl, rfl, rfl, rfl⟩

/-- The public entrypoint `generate_summary_image` with its optional
arguments (source lines 818-855): `user_titles`, `golden_quotes` and
`hourly_distribution` default to the empty list/dict when `None`
(lines 850-855). -/
def generateSummaryImage (m : FontMetrics) (randomState width : Nat)
    (title summaryText timeInfo : List Char) (messageCount participantCount : Nat)
    (userTitles : Option (List TitleItem)) (goldenQuotes : Option (List QuoteItem))
    (hourlyDistribution : Option (List (Nat × Nat))) : RenderOutput :=
  generateRender m randomState width
    { title := title
      summaryText := summaryText
      timeInfo := timeInfo
      messageCount := messageCount
      participantCount := participantCount
      userTitles := userTitles.getD []
      goldenQuotes := goldenQuotes.getD []
      hourlyDistribution := hourlyDistribution.getD [] }

/-- Claim C10: passing `None` for `user_titles`, `golden_quotes` or
`hourly_distribution` renders identically to passing the empty
list/dict. -/
theorem c10_none_defaults (m : FontMetrics) (randomState width : Nat)
    (title summaryText timeInfo : List Char) (messageCount participantCount : Nat)
    (userTitles : Option (List TitleItem)) (goldenQuotes : Option (List QuoteItem))
    (hourlyDistribution : Option (List (Nat × Nat))) :
    generateSummaryImage m randomState width title summaryText timeInfo
        messageCount participantCount none goldenQuotes hourlyDistribution
      = generateSummaryImage m randomState width title summaryText timeInfo
        messageCount participantCount (some []) goldenQuotes hourlyDistribution
    ∧ generateSummaryImage m randomState width title summaryText timeInfo
        messageCount participantCount userTitles none hourlyDistribution
      = generateSummaryImage m randomState width title summaryText timeInfo
        messageCount participantCount userTitles (some []) hourlyDistribution
    ∧ generateSummaryImage m randomState width title summaryText timeInfo
        messageCount participantCount userTitles goldenQuotes none
      = generateSummaryImage m randomState width title summaryText timeInfo
        messageCount participantCount userTitles goldenQuotes (some []) :=
  ⟨rfl, rfl, rfl⟩

/-- Concrete font metrics for witnesses: widths proportional to the glyph
count, line heights as measured for the configured font sizes. -/
def witnessMetrics : FontMetrics :=
  { wText := fun l => 28 * l.length
    wSmall := fun l => 24 * l.length
    hTitle := 64
    hSection := 46
    hSubtitle := 33
    hText := 29
    hSmall := 25 }

/-- A concrete render request exercising every section. -/
def witnessRequest : RenderRequest :=
  { title := ['总', '结']
    summaryText := ['你', '好', '呀']
    timeInfo := ['今']
    messageCount := 10
    participantCount := 3
    userTitles := [⟨['甲'], ['王'], ['理', '由']⟩]
    goldenQuotes := [⟨['句'], ['乙'], ['因']⟩]
    hourlyDistribution := [(9, 5), (14, 3)] }

/-- Witness for `c1_height_paint_consistency` at concrete metrics and
request. -/
theorem c1_height_paint_consistency_witness :
    witnessMetrics.hTitle ≤ 210 ∧ witnessMetrics.hSection ≤ 100 ∧ witnessMetrics.hSmall ≤ 80
    ∧ (totalHeight witnessMetrics 1200 witnessRequest
        = ((paintBlocks witnessMetrics 1200 witnessRequest).map Block.height).sum
      ∧ chainedFrom 0 (paintBlocks witnessMetrics 1200 witnessRequest) = true
      ∧ ∀ b ∈ paintBlocks witnessMetrics 1200 witnessRequest, ∀ p ∈ b.prims,
          0 ≤ p.1 ∧ p.2 ≤ (b.height : Int)) :=
  ⟨by decide, by decide, by decide,
    c1_height_paint_consistency witnessMetrics 1200 witnessRequest
      (by decide) (by decide) (by decide)⟩
